import Mathlib

set_option autoImplicit false

/-!
Verification development for the go-base-repository core: the Unified Query
Identifier (pkg/identifier), the shared types (pkg/types), and the two
backend Repository Facades (pkg/mongo/base_repository.go and the postgres
facade). Definitions are shallow embeddings of the Go source; the two
external backend-native filter builders (from the mongo-unit-of-work-system
and postgrs-unit-of-work-system dependencies) are not part of this
repository and are modelled from the spec where noted.
-/

/-- Model of a Go value handed to a builder method through an
interface-typed argument (interface\x7b\x7d in the source). Predicate
values are opaque to this layer; the constructors cover the shapes the
repository passes around (ints, strings, bools, the pair passed to
Between, the slice passed to In). -/
inductive GoVal where
  | vnull
  | vint (n : Int)
  | vstr (s : String)
  | vbool (b : Bool)
  | vpair (a b : GoVal)
  | vlist (l : List GoVal)

/-- The six predicate operators of the Unified Query Identifier builder
API (Equal, GreaterThan, LessThan, Between, Like, In). -/
inductive FilterOp where
  | eq
  | gt
  | lt
  | between
  | like
  | isIn
deriving DecidableEq

/-- A backend-native predicate store: a finite-map-like assignment of a
value to each (field, operator) key. This is the shape of the native
extraction of a backend filter builder. -/
abbrev PredStore := String → FilterOp → Option GoVal

/-- The empty predicate store (the empty native map). -/
def PredStore.empty : PredStore := fun _ _ => none

/-- Record or overwrite the predicate for a (field, operator) key:
map-like last-write-wins semantics. -/
def PredStore.upsert (s : PredStore) (f : String) (op : FilterOp) (v : GoVal) : PredStore :=
  fun g o => if g = f ∧ o = op then some v else s g o

/-- True when some predicate in the store references the field, under any
of the six operators. -/
def PredStore.hasField (s : PredStore) (f : String) : Bool :=
  (s f FilterOp.eq).isSome || (s f FilterOp.gt).isSome || (s f FilterOp.lt).isSome ||
  (s f FilterOp.between).isSome || (s f FilterOp.like).isSome || (s f FilterOp.isIn).isSome

/-- Modelled from the spec: the external MongoDB-native filter builder
(mongoIdentifier.IIdentifier from the mongo-unit-of-work-system
dependency) is not part of this repository. Per spec section 4.1 each
builder call records/overwrites a predicate keyed by (field, operator) in
the active native representation, Has is true iff any predicate currently
references the field, and ToBSON returns the accumulated predicates in
the native shape. -/
structure MongoNativeIdentifier where
  preds : PredStore

/-- Modelled from the spec: mongoIdentifier.New, the empty MongoDB-native
builder. -/
def MongoNativeIdentifier.New : MongoNativeIdentifier := ⟨PredStore.empty⟩

/-- Modelled from the spec: Equal records/overwrites the (field, eq)
predicate. -/
def MongoNativeIdentifier.Equal (m : MongoNativeIdentifier) (f : String) (v : GoVal) :
    MongoNativeIdentifier := ⟨m.preds.upsert f FilterOp.eq v⟩

/-- Modelled from the spec: GreaterThan records/overwrites the (field, gt)
predicate. -/
def MongoNativeIdentifier.GreaterThan (m : MongoNativeIdentifier) (f : String) (v : GoVal) :
    MongoNativeIdentifier := ⟨m.preds.upsert f FilterOp.gt v⟩

/-- Modelled from the spec: LessThan records/overwrites the (field, lt)
predicate. -/
def MongoNativeIdentifier.LessThan (m : MongoNativeIdentifier) (f : String) (v : GoVal) :
    MongoNativeIdentifier := ⟨m.preds.upsert f FilterOp.lt v⟩

/-- Modelled from the spec: Between records/overwrites the (field,
between) predicate with the bound pair. -/
def MongoNativeIdentifier.Between (m : MongoNativeIdentifier) (f : String) (lo hi : GoVal) :
    MongoNativeIdentifier := ⟨m.preds.upsert f FilterOp.between (GoVal.vpair lo hi)⟩

/-- Modelled from the spec: Like records/overwrites the (field, like)
predicate. -/
def MongoNativeIdentifier.Like (m : MongoNativeIdentifier) (f : String) (pat : String) :
    MongoNativeIdentifier := ⟨m.preds.upsert f FilterOp.like (GoVal.vstr pat)⟩

/-- Modelled from the spec: In records/overwrites the (field, isIn)
predicate with the value list. -/
def MongoNativeIdentifier.In (m : MongoNativeIdentifier) (f : String) (vs : List GoVal) :
    MongoNativeIdentifier := ⟨m.preds.upsert f FilterOp.isIn (GoVal.vlist vs)⟩

/-- Modelled from the spec: ToBSON returns the accumulated predicates in
the MongoDB-native document-filter shape. -/
def MongoNativeIdentifier.ToBSON (m : MongoNativeIdentifier) : PredStore := m.preds

/-- Modelled from the spec: Has is true iff any predicate currently
references the field. -/
def MongoNativeIdentifier.Has (m : MongoNativeIdentifier) (f : String) : Bool :=
  m.preds.hasField f

/-- Modelled from the spec: the external PostgreSQL-native filter builder
(postgresIdentifier.IIdentifier from the postgrs-unit-of-work-system
dependency) is not part of this repository. Same map-like predicate
semantics as the MongoDB-native builder; its extraction method is ToMap
and it exposes no Has method (noted in the source of the unified
wrapper). -/
structure PostgresNativeIdentifier where
  preds : PredStore

/-- Modelled from the spec: postgresIdentifier.NewIdentifier, the empty
PostgreSQL-native builder. -/
def PostgresNativeIdentifier.NewIdentifier : PostgresNativeIdentifier := ⟨PredStore.empty⟩

/-- Modelled from the spec: Equal records/overwrites the (field, eq)
predicate. -/
def PostgresNativeIdentifier.Equal (p : PostgresNativeIdentifier) (f : String) (v : GoVal) :
    PostgresNativeIdentifier := ⟨p.preds.upsert f FilterOp.eq v⟩

/-- Modelled from the spec: GreaterThan records/overwrites the (field, gt)
predicate. -/
def PostgresNativeIdentifier.GreaterThan (p : PostgresNativeIdentifier) (f : String) (v : GoVal) :
    PostgresNativeIdentifier := ⟨p.preds.upsert f FilterOp.gt v⟩

/-- Modelled from the spec: LessThan records/overwrites the (field, lt)
predicate. -/
def PostgresNativeIdentifier.LessThan (p : PostgresNativeIdentifier) (f : String) (v : GoVal) :
    PostgresNativeIdentifier := ⟨p.preds.upsert f FilterOp.lt v⟩

/-- Modelled from the spec: Between records/overwrites the (field,
between) predicate with the bound pair. -/
def PostgresNativeIdentifier.Between (p : PostgresNativeIdentifier) (f : String) (lo hi : GoVal) :
    PostgresNativeIdentifier := ⟨p.preds.upsert f FilterOp.between (GoVal.vpair lo hi)⟩

/-- Modelled from the spec: Like records/overwrites the (field, like)
predicate. -/
def PostgresNativeIdentifier.Like (p : PostgresNativeIdentifier) (f : String) (pat : String) :
    PostgresNativeIdentifier := ⟨p.preds.upsert f FilterOp.like (GoVal.vstr pat)⟩

/-- Modelled from the spec: In records/overwrites the (field, isIn)
predicate with the value list. -/
def PostgresNativeIdentifier.In (p : PostgresNativeIdentifier) (f : String) (vs : List GoVal) :
    PostgresNativeIdentifier := ⟨p.preds.upsert f FilterOp.isIn (GoVal.vlist vs)⟩

/-- Modelled from the spec: ToMap returns the accumulated predicates in
the PostgreSQL-native column-filter shape. -/
def PostgresNativeIdentifier.ToMap (p : PostgresNativeIdentifier) : PredStore := p.preds

/-- Embedding of pkg/identifier UnifiedIdentifier: two nullable native
representations, at most one of which is populated (Go nil pointers
become Option.none). -/
structure UnifiedIdentifier where
  mongoID : Option MongoNativeIdentifier
  postgresID : Option PostgresNativeIdentifier

/-- Embedding of identifier.NewMongoIdentifier: populates only the
MongoDB-native representation. -/
def NewMongoIdentifier : UnifiedIdentifier :=
  { mongoID := some MongoNativeIdentifier.New, postgresID := none }

/-- Embedding of identifier.NewPostgresIdentifier: populates only the
PostgreSQL-native representation. -/
def NewPostgresIdentifier : UnifiedIdentifier :=
  { mongoID := none, postgresID := some PostgresNativeIdentifier.NewIdentifier }

/-- Embedding of UnifiedIdentifier.Equal: delegates to whichever native
representation is non-nil (Option.map embeds the two nil checks). -/
def UnifiedIdentifier.Equal (u : UnifiedIdentifier) (field : String) (value : GoVal) :
    UnifiedIdentifier :=
  { mongoID := u.mongoID.map (fun m => m.Equal field value),
    postgresID := u.postgresID.map (fun p => p.Equal field value) }

/-- Embedding of UnifiedIdentifier.GreaterThan. -/
def UnifiedIdentifier.GreaterThan (u : UnifiedIdentifier) (field : String) (value : GoVal) :
    UnifiedIdentifier :=
  { mongoID := u.mongoID.map (fun m => m.GreaterThan field value),
    postgresID := u.postgresID.map (fun p => p.GreaterThan field value) }

/-- Embedding of UnifiedIdentifier.LessThan. -/
def UnifiedIdentifier.LessThan (u : UnifiedIdentifier) (field : String) (value : GoVal) :
    UnifiedIdentifier :=
  { mongoID := u.mongoID.map (fun m => m.LessThan field value),
    postgresID := u.postgresID.map (fun p => p.LessThan field value) }

/-- Embedding of UnifiedIdentifier.Between. -/
def UnifiedIdentifier.Between (u : UnifiedIdentifier) (field : String) (lo hi : GoVal) :
    UnifiedIdentifier :=
  { mongoID := u.mongoID.map (fun m => m.Between field lo hi),
    postgresID := u.postgresID.map (fun p => p.Between field lo hi) }

/-- Embedding of UnifiedIdentifier.Like. -/
def UnifiedIdentifier.Like (u : UnifiedIdentifier) (field : String) (pat : String) :
    UnifiedIdentifier :=
  { mongoID := u.mongoID.map (fun m => m.Like field pat),
    postgresID := u.postgresID.map (fun p => p.Like field pat) }

/-- Embedding of UnifiedIdentifier.In. -/
def UnifiedIdentifier.In (u : UnifiedIdentifier) (field : String) (vs : List GoVal) :
    UnifiedIdentifier :=
  { mongoID := u.mongoID.map (fun m => m.In field vs),
    postgresID := u.postgresID.map (fun p => p.In field vs) }

/-- Embedding of UnifiedIdentifier.ToBSON: delegate to the MongoDB-native
builder when populated, otherwise return a freshly made empty map. -/
def UnifiedIdentifier.ToBSON (u : UnifiedIdentifier) : PredStore :=
  match u.mongoID with
  | some m => m.ToBSON
  | none => PredStore.empty

/-- Embedding of UnifiedIdentifier.ToMap: delegate to the
PostgreSQL-native builder when populated, otherwise return a freshly made
empty map. -/
def UnifiedIdentifier.ToMap (u : UnifiedIdentifier) : PredStore :=
  match u.postgresID with
  | some p => p.ToMap
  | none => PredStore.empty

/-- Embedding of UnifiedIdentifier.Has: delegate to the MongoDB-native
Has when that side is populated; otherwise, as the source notes that the
PostgreSQL builder has no Has method, test field membership in the ToMap
extraction; otherwise false. -/
def UnifiedIdentifier.Has (u : UnifiedIdentifier) (field : String) : Bool :=
  match u.mongoID with
  | some m => m.Has field
  | none =>
    match u.postgresID with
    | some p => (p.ToMap).hasField field
    | none => false

/-- Embedding of UnifiedIdentifier.GetMongoIdentifier: returns the
(possibly nil) MongoDB-native representation. -/
def UnifiedIdentifier.GetMongoIdentifier (u : UnifiedIdentifier) :
    Option MongoNativeIdentifier := u.mongoID

/-- Embedding of UnifiedIdentifier.GetPostgresIdentifier: returns the
(possibly nil) PostgreSQL-native representation. -/
def UnifiedIdentifier.GetPostgresIdentifier (u : UnifiedIdentifier) :
    Option PostgresNativeIdentifier := u.postgresID

/-- One call of the fluent predicate-builder API, for quantifying over
arbitrary builder call sequences. -/
inductive BuilderOp where
  | equal (f : String) (v : GoVal)
  | greaterThan (f : String) (v : GoVal)
  | lessThan (f : String) (v : GoVal)
  | between (f : String) (lo hi : GoVal)
  | like (f : String) (pat : String)
  | inOp (f : String) (vs : List GoVal)

/-- Apply one builder call to a unified identifier. -/
def applyOp (u : UnifiedIdentifier) : BuilderOp → UnifiedIdentifier
  | BuilderOp.equal f v => u.Equal f v
  | BuilderOp.greaterThan f v => u.GreaterThan f v
  | BuilderOp.lessThan f v => u.LessThan f v
  | BuilderOp.between f lo hi => u.Between f lo hi
  | BuilderOp.like f pat => u.Like f pat
  | BuilderOp.inOp f vs => u.In f vs

/-- Apply a sequence of builder calls, left to right, as a fluent chain
does. -/
def applyOps (u : UnifiedIdentifier) (ops : List BuilderOp) : UnifiedIdentifier :=
  ops.foldl applyOp u

/-- The invariant of claim C8: exactly one of the two native
representations is populated. -/
def exactlyOnePopulated (u : UnifiedIdentifier) : Prop :=
  (u.mongoID.isSome = true ∧ u.postgresID = none) ∨
  (u.mongoID = none ∧ u.postgresID.isSome = true)

/-- Embedding of types.SortDirection (a Go string type). -/
abbrev SortDirection := String

/-- Embedding of types.SortAsc. -/
def SortAsc : SortDirection := "ASC"

/-- Embedding of types.SortDesc. -/
def SortDesc : SortDirection := "DESC"

/-- Embedding of types.SortMap (map from field name to direction); the
outer Option distinguishes a nil Go map from a non-nil one, and the inner
function is the map's contents. -/
abbrev SortMap := Option (String → Option SortDirection)

/-- Embedding of types.QueryParams: pagination and ordering parameters.
The entity-typed Filter field is opaque to the translation logic verified
here and is abstracted away; the source field named Sort is rendered
SortOrder because Sort is a reserved word in Lean. -/
structure QueryParams where
  Limit : Int
  Offset : Int
  SortOrder : SortMap
  Include : List String

/-- Call context (Go context.Context), opaque at this layer; modelled as
a token so facade operations can be quantified over every context. -/
abbrev Ctx := Nat

/-- A value implementing the types.Identifier interface: either the
concrete UnifiedIdentifier of pkg/identifier, or any other
implementation of the interface (identified opaquely by a tag). -/
inductive IdentifierValue where
  | unified (u : UnifiedIdentifier)
  | other (impl : String)

/-- A Go runtime panic relevant to this layer: the failure of an
unchecked type assertion. -/
inductive GoPanic where
  | typeAssertion

/-- Embedding of the unchecked Go type assertion
filter.(asterisk-identifier.UnifiedIdentifier): succeeds on the concrete
UnifiedIdentifier type and panics on any other implementation of
types.Identifier. -/
def assertUnified : IdentifierValue → Except GoPanic UnifiedIdentifier
  | IdentifierValue.unified u => Except.ok u
  | IdentifierValue.other _ => Except.error GoPanic.typeAssertion

/-- Embedding of the per-element assertion loop the bulk facade methods
run over their filter slice: assert each element in order, collecting the
concrete identifiers, panicking at the first non-UnifiedIdentifier
element. -/
def assertAll : List IdentifierValue → Except GoPanic (List UnifiedIdentifier)
  | [] => Except.ok []
  | f :: rest =>
    match assertUnified f with
    | Except.error e => Except.error e
    | Except.ok u =>
      match assertAll rest with
      | Except.error e => Except.error e
      | Except.ok us => Except.ok (u :: us)

namespace mongo

/-- Modelled from the spec: the MongoDB session's native sort direction
(mongoDomain.SortAsc / mongoDomain.SortDesc from the external
mongo-unit-of-work-system dependency). -/
inductive SortDir where
  | asc
  | desc

/-- Modelled from the spec: mongoDomain.SortMap, the MongoDB-native sort
mapping (nil or field to direction). -/
abbrev NativeSortMap := Option (String → Option SortDir)

/-- Embedding of mongo.convertSortMap (pkg/mongo/base_repository.go):
nil maps to nil; otherwise each field whose direction is SortAsc or
SortDesc is copied with the corresponding native direction, and the
switch has no default case, so any other direction value is dropped. -/
def convertSortMap (sort : SortMap) : NativeSortMap :=
  match sort with
  | none => none
  | some m => some (fun field =>
      match m field with
      | some direction =>
        if direction = SortAsc then some SortDir.asc
        else if direction = SortDesc then some SortDir.desc
        else none
      | none => none)

/-- The session (unit-of-work) call a facade method issues after
translating its arguments: which session method is invoked and with
which translated filter/sort arguments. Entity payloads, which the facade
passes through untouched, are abstracted away. -/
inductive SessionCall where
  | findOneByIdentifier (filter : Option MongoNativeIdentifier)
  | findAll
  | findAllWithPagination (limit offset : Int) (sort : NativeSortMap)
  | update (filter : Option MongoNativeIdentifier)
  | delete (filter : Option MongoNativeIdentifier)
  | bulkSoftDelete (filters : List (Option MongoNativeIdentifier))
  | bulkHardDelete (filters : List (Option MongoNativeIdentifier))
  | softDelete (filter : Option MongoNativeIdentifier)
  | hardDelete (filter : Option MongoNativeIdentifier)
  | getTrashedWithPagination (limit offset : Int) (sort : NativeSortMap)
  | restore (filter : Option MongoNativeIdentifier)

/-- True exactly on the session calls that permanently remove entities
regardless of tombstone state (the hard-delete family). -/
def SessionCall.isHardDeleteCall : SessionCall → Bool
  | SessionCall.bulkHardDelete _ => true
  | SessionCall.hardDelete _ => true
  | _ => false

/-- Embedding of mongo BaseRepository.FindOne: asserts the filter to the
concrete UnifiedIdentifier and delegates its MongoDB-native form to the
session. -/
def FindOne (_ctx : Ctx) (filter : IdentifierValue) : Except GoPanic SessionCall :=
  match assertUnified filter with
  | Except.error e => Except.error e
  | Except.ok u => Except.ok (SessionCall.findOneByIdentifier u.GetMongoIdentifier)

/-- Embedding of mongo BaseRepository.FindAll: delegates to the session's
unfiltered FindAll; the filter argument is never read. -/
def FindAll (_ctx : Ctx) (_filter : IdentifierValue) : Except GoPanic SessionCall :=
  Except.ok SessionCall.findAll

/-- Embedding of mongo BaseRepository.FindAllWithPagination: passes
Limit and Offset through and translates Sort with convertSortMap. -/
def FindAllWithPagination (_ctx : Ctx) (params : QueryParams) : Except GoPanic SessionCall :=
  Except.ok (SessionCall.findAllWithPagination params.Limit params.Offset
    (convertSortMap params.SortOrder))

/-- Embedding of mongo BaseRepository.Update (entity payload
abstracted): asserts the filter and delegates its MongoDB-native form. -/
def Update (_ctx : Ctx) (filter : IdentifierValue) : Except GoPanic SessionCall :=
  match assertUnified filter with
  | Except.error e => Except.error e
  | Except.ok u => Except.ok (SessionCall.update u.GetMongoIdentifier)

/-- Embedding of mongo BaseRepository.Delete: asserts the filter and
delegates its MongoDB-native form to the session's Delete. -/
def Delete (_ctx : Ctx) (filter : IdentifierValue) : Except GoPanic SessionCall :=
  match assertUnified filter with
  | Except.error e => Except.error e
  | Except.ok u => Except.ok (SessionCall.delete u.GetMongoIdentifier)

/-- Embedding of mongo BaseRepository.BulkDelete: asserts every filter,
converts each to its MongoDB-native form, and invokes the session's
BulkHardDelete. -/
def BulkDelete (_ctx : Ctx) (filters : List IdentifierValue) : Except GoPanic SessionCall :=
  match assertAll filters with
  | Except.error e => Except.error e
  | Except.ok us => Except.ok (SessionCall.bulkHardDelete (us.map UnifiedIdentifier.GetMongoIdentifier))

/-- Embedding of mongo BaseRepository.SoftDelete. -/
def SoftDelete (_ctx : Ctx) (filter : IdentifierValue) : Except GoPanic SessionCall :=
  match assertUnified filter with
  | Except.error e => Except.error e
  | Except.ok u => Except.ok (SessionCall.softDelete u.GetMongoIdentifier)

/-- Embedding of mongo BaseRepository.HardDelete. -/
def HardDelete (_ctx : Ctx) (filter : IdentifierValue) : Except GoPanic SessionCall :=
  match assertUnified filter with
  | Except.error e => Except.error e
  | Except.ok u => Except.ok (SessionCall.hardDelete u.GetMongoIdentifier)

/-- Embedding of mongo BaseRepository.BulkSoftDelete. -/
def BulkSoftDelete (_ctx : Ctx) (filters : List IdentifierValue) : Except GoPanic SessionCall :=
  match assertAll filters with
  | Except.error e => Except.error e
  | Except.ok us => Except.ok (SessionCall.bulkSoftDelete (us.map UnifiedIdentifier.GetMongoIdentifier))

/-- Embedding of mongo BaseRepository.BulkHardDelete. -/
def BulkHardDelete (_ctx : Ctx) (filters : List IdentifierValue) : Except GoPanic SessionCall :=
  match assertAll filters with
  | Except.error e => Except.error e
  | Except.ok us => Except.ok (SessionCall.bulkHardDelete (us.map UnifiedIdentifier.GetMongoIdentifier))

/-- Embedding of mongo BaseRepository.GetTrashedWithPagination. -/
def GetTrashedWithPagination (_ctx : Ctx) (params : QueryParams) : Except GoPanic SessionCall :=
  Except.ok (SessionCall.getTrashedWithPagination params.Limit params.Offset
    (convertSortMap params.SortOrder))

/-- Embedding of mongo BaseRepository.Restore. -/
def Restore (_ctx : Ctx) (filter : IdentifierValue) : Except GoPanic SessionCall :=
  match assertUnified filter with
  | Except.error e => Except.error e
  | Except.ok u => Except.ok (SessionCall.restore u.GetMongoIdentifier)

/-- Result model of the session's transaction methods: the error (none
for success) each of the three calls would return for a given context's
session. -/
structure Session where
  beginResult : Option String
  commitResult : Option String
  rollbackResult : Option String

/-- The session factory held by the facade: produces the session scoped
to a call context (mongoUOW.IUnitOfWorkFactory.CreateWithContext). -/
structure Factory where
  createWithContext : Ctx → Session

/-- Embedding of mongo BaseRepository.BeginTransaction: obtains the
session for the context and returns its result unchanged. -/
def BeginTransaction (r : Factory) (ctx : Ctx) : Option String :=
  (r.createWithContext ctx).beginResult

/-- Embedding of mongo BaseRepository.CommitTransaction: obtains the
session for the context and returns its result unchanged. -/
def CommitTransaction (r : Factory) (ctx : Ctx) : Option String :=
  (r.createWithContext ctx).commitResult

/-- Embedding of mongo BaseRepository.RollbackTransaction: obtains the
session for the context, calls its rollback, discards that call's
result, and returns nil. -/
def RollbackTransaction (r : Factory) (ctx : Ctx) : Option String :=
  let uow := r.createWithContext ctx
  let _ := uow.rollbackResult
  none

end mongo

namespace postgres

/-- Modelled from the spec: the PostgreSQL session's native sort
direction (postgresDomain.SortAsc / postgresDomain.SortDesc from the
external postgrs-unit-of-work-system dependency). -/
inductive SortDir where
  | asc
  | desc

/-- Modelled from the spec: postgresDomain.SortMap, the PostgreSQL-native
sort mapping (nil or field to direction). -/
abbrev NativeSortMap := Option (String → Option SortDir)

/-- Embedding of postgres.convertSortMap: nil maps to nil; otherwise each
field whose direction is SortAsc or SortDesc is copied with the
corresponding native direction, and any other direction value is
dropped. -/
def convertSortMap (sort : SortMap) : NativeSortMap :=
  match sort with
  | none => none
  | some m => some (fun field =>
      match m field with
      | some direction =>
        if direction = SortAsc then some SortDir.asc
        else if direction = SortDesc then some SortDir.desc
        else none
      | none => none)

/-- The session call a postgres facade method issues after translating
its arguments; entity payloads abstracted as in the mongo model. -/
inductive SessionCall where
  | findOneByIdentifier (filter : Option PostgresNativeIdentifier)
  | findAll
  | findAllWithPagination (limit offset : Int) (sort : NativeSortMap)
  | update (filter : Option PostgresNativeIdentifier)
  | delete (filter : Option PostgresNativeIdentifier)
  | bulkSoftDelete (filters : List (Option PostgresNativeIdentifier))
  | bulkHardDelete (filters : List (Option PostgresNativeIdentifier))
  | softDelete (filter : Option PostgresNativeIdentifier)
  | hardDelete (filter : Option PostgresNativeIdentifier)
  | getTrashedWithPagination (limit offset : Int) (sort : NativeSortMap)
  | restore (filter : Option PostgresNativeIdentifier)

/-- True exactly on the hard-delete family of session calls. -/
def SessionCall.isHardDeleteCall : SessionCall → Bool
  | SessionCall.bulkHardDelete _ => true
  | SessionCall.hardDelete _ => true
  | _ => false

/-- Embedding of postgres BaseRepository.FindOne. -/
def FindOne (_ctx : Ctx) (filter : IdentifierValue) : Except GoPanic SessionCall :=
  match assertUnified filter with
  | Except.error e => Except.error e
  | Except.ok u => Except.ok (SessionCall.findOneByIdentifier u.GetPostgresIdentifier)

/-- Embedding of postgres BaseRepository.FindAll: delegates to the
session's unfiltered FindAll; the filter argument is never read. -/
def FindAll (_ctx : Ctx) (_filter : IdentifierValue) : Except GoPanic SessionCall :=
  Except.ok SessionCall.findAll

/-- Embedding of postgres BaseRepository.FindAllWithPagination. -/
def FindAllWithPagination (_ctx : Ctx) (params : QueryParams) : Except GoPanic SessionCall :=
  Except.ok (SessionCall.findAllWithPagination params.Limit params.Offset
    (convertSortMap params.SortOrder))

/-- Embedding of postgres BaseRepository.Update (entity payload
abstracted). -/
def Update (_ctx : Ctx) (filter : IdentifierValue) : Except GoPanic SessionCall :=
  match assertUnified filter with
  | Except.error e => Except.error e
  | Except.ok u => Except.ok (SessionCall.update u.GetPostgresIdentifier)

/-- Embedding of postgres BaseRepository.Delete. -/
def Delete (_ctx : Ctx) (filter : IdentifierValue) : Except GoPanic SessionCall :=
  match assertUnified filter with
  | Except.error e => Except.error e
  | Except.ok u => Except.ok (SessionCall.delete u.GetPostgresIdentifier)

/-- Embedding of postgres BaseRepository.BulkDelete: asserts every
filter, converts each to its PostgreSQL-native form, and invokes the
session's BulkHardDelete. -/
def BulkDelete (_ctx : Ctx) (filters : List IdentifierValue) : Except GoPanic SessionCall :=
  match assertAll filters with
  | Except.error e => Except.error e
  | Except.ok us => Except.ok (SessionCall.bulkHardDelete (us.map UnifiedIdentifier.GetPostgresIdentifier))

/-- Embedding of postgres BaseRepository.SoftDelete. -/
def SoftDelete (_ctx : Ctx) (filter : IdentifierValue) : Except GoPanic SessionCall :=
  match assertUnified filter with
  | Except.error e => Except.error e
  | Except.ok u => Except.ok (SessionCall.softDelete u.GetPostgresIdentifier)

/-- Embedding of postgres BaseRepository.HardDelete. -/
def HardDelete (_ctx : Ctx) (filter : IdentifierValue) : Except GoPanic SessionCall :=
  match assertUnified filter with
  | Except.error e => Except.error e
  | Except.ok u => Except.ok (SessionCall.hardDelete u.GetPostgresIdentifier)

/-- Embedding of postgres BaseRepository.BulkSoftDelete. -/
def BulkSoftDelete (_ctx : Ctx) (filters : List IdentifierValue) : Except GoPanic SessionCall :=
  match assertAll filters with
  | Except.error e => Except.error e
  | Except.ok us => Except.ok (SessionCall.bulkSoftDelete (us.map UnifiedIdentifier.GetPostgresIdentifier))

/-- Embedding of postgres BaseRepository.BulkHardDelete. -/
def BulkHardDelete (_ctx : Ctx) (filters : List IdentifierValue) : Except GoPanic SessionCall :=
  match assertAll filters with
  | Except.error e => Except.error e
  | Except.ok us => Except.ok (SessionCall.bulkHardDelete (us.map UnifiedIdentifier.GetPostgresIdentifier))

/-- Embedding of postgres BaseRepository.GetTrashedWithPagination. -/
def GetTrashedWithPagination (_ctx : Ctx) (params : QueryParams) : Except GoPanic SessionCall :=
  Except.ok (SessionCall.getTrashedWithPagination params.Limit params.Offset
    (convertSortMap params.SortOrder))

/-- Embedding of postgres BaseRepository.Restore. -/
def Restore (_ctx : Ctx) (filter : IdentifierValue) : Except GoPanic SessionCall :=
  match assertUnified filter with
  | Except.error e => Except.error e
  | Except.ok u => Except.ok (SessionCall.restore u.GetPostgresIdentifier)

/-- Result model of the postgres session's transaction methods. -/
structure Session where
  beginResult : Option String
  commitResult : Option String
  rollbackResult : Option String

/-- The postgres session factory held by the facade. -/
structure Factory where
  createWithContext : Ctx → Session

/-- Embedding of postgres BaseRepository.BeginTransaction. -/
def BeginTransaction (r : Factory) (ctx : Ctx) : Option String :=
  (r.createWithContext ctx).beginResult

/-- Embedding of postgres BaseRepository.CommitTransaction. -/
def CommitTransaction (r : Factory) (ctx : Ctx) : Option String :=
  (r.createWithContext ctx).commitResult

/-- Embedding of postgres BaseRepository.RollbackTransaction: the
session's rollback result is discarded and nil is returned. -/
def RollbackTransaction (r : Factory) (ctx : Ctx) : Option String :=
  let uow := r.createWithContext ctx
  let _ := uow.rollbackResult
  none

end postgres

/-! Helper lemmas shared by the claim theorems. -/

/-- Overwriting the same (field, operator) key twice keeps only the last
value. -/
theorem PredStore.upsert_upsert_same (s : PredStore) (f : String) (op : FilterOp) (v1 v2 : GoVal) :
    (s.upsert f op v1).upsert f op v2 = s.upsert f op v2 := by
  funext g o
  by_cases h : g = f ∧ o = op <;> simp [PredStore.upsert, h]

/-- Upserts on different (field, operator) keys commute. -/
theorem PredStore.upsert_comm (s : PredStore) (f1 f2 : String) (op1 op2 : FilterOp)
    (v1 v2 : GoVal) (h : ¬(f1 = f2 ∧ op1 = op2)) :
    (s.upsert f1 op1 v1).upsert f2 op2 v2 = (s.upsert f2 op2 v2).upsert f1 op1 v1 := by
  funext g o
  simp only [PredStore.upsert]
  by_cases h1 : g = f1 ∧ o = op1
  · obtain ⟨rfl, rfl⟩ := h1
    by_cases h2 : g = f2 ∧ o = op2
    · exact absurd h2 h
    · simp [h2]
  · by_cases h2 : g = f2 ∧ o = op2
    · obtain ⟨rfl, rfl⟩ := h2
      simp [h1]
    · simp [h1, h2]

/-- Unfolding lemma for applyOps on the empty call sequence. -/
theorem applyOps_nil (u : UnifiedIdentifier) : applyOps u [] = u := rfl

/-- Unfolding lemma for applyOps on a nonempty call sequence. -/
theorem applyOps_cons (u : UnifiedIdentifier) (o : BuilderOp) (ops : List BuilderOp) :
    applyOps u (o :: ops) = applyOps (applyOp u o) ops := rfl

/-- Every builder call acts on the two native representations through
Option.map, with some per-backend update functions. -/
theorem applyOp_shape (u : UnifiedIdentifier) (o : BuilderOp) :
    ∃ (fm : MongoNativeIdentifier → MongoNativeIdentifier)
      (fp : PostgresNativeIdentifier → PostgresNativeIdentifier),
      (applyOp u o).mongoID = u.mongoID.map fm ∧
      (applyOp u o).postgresID = u.postgresID.map fp := by
  cases o with
  | equal f v => exact ⟨fun m => m.Equal f v, fun p => p.Equal f v, rfl, rfl⟩
  | greaterThan f v => exact ⟨fun m => m.GreaterThan f v, fun p => p.GreaterThan f v, rfl, rfl⟩
  | lessThan f v => exact ⟨fun m => m.LessThan f v, fun p => p.LessThan f v, rfl, rfl⟩
  | between f lo hi => exact ⟨fun m => m.Between f lo hi, fun p => p.Between f lo hi, rfl, rfl⟩
  | like f pat => exact ⟨fun m => m.Like f pat, fun p => p.Like f pat, rfl, rfl⟩
  | inOp f vs => exact ⟨fun m => m.In f vs, fun p => p.In f vs, rfl, rfl⟩

/-- A builder call sequence changes neither the populatedness of the
MongoDB side nor that of the PostgreSQL side. -/
theorem applyOps_isSome (ops : List BuilderOp) (u : UnifiedIdentifier) :
    (applyOps u ops).mongoID.isSome = u.mongoID.isSome ∧
    (applyOps u ops).postgresID.isSome = u.postgresID.isSome := by
  induction ops generalizing u with
  | nil => exact ⟨rfl, rfl⟩
  | cons o rest ih =>
    obtain ⟨fm, fp, h1, h2⟩ := applyOp_shape u o
    have hr := ih (applyOp u o)
    rw [applyOps_cons]
    refine ⟨hr.1.trans ?_, hr.2.trans ?_⟩
    · rw [h1]; cases u.mongoID <;> rfl
    · rw [h2]; cases u.postgresID <;> rfl

/-- An identifier built from NewMongoIdentifier by any call sequence
keeps its MongoDB side populated and its PostgreSQL side nil. -/
theorem applyOps_newMongo_mode (ops : List BuilderOp) :
    (∃ m, (applyOps NewMongoIdentifier ops).mongoID = some m) ∧
    (applyOps NewMongoIdentifier ops).postgresID = none := by
  have h := applyOps_isSome ops NewMongoIdentifier
  constructor
  · cases hm : (applyOps NewMongoIdentifier ops).mongoID with
    | none => rw [hm] at h; simp [NewMongoIdentifier] at h
    | some m => exact ⟨m, rfl⟩
  · cases hp : (applyOps NewMongoIdentifier ops).postgresID with
    | none => rfl
    | some p => rw [hp] at h; simp [NewMongoIdentifier] at h

/-- An identifier built from NewPostgresIdentifier by any call sequence
keeps its PostgreSQL side populated and its MongoDB side nil. -/
theorem applyOps_newPostgres_mode (ops : List BuilderOp) :
    (applyOps NewPostgresIdentifier ops).mongoID = none ∧
    (∃ p, (applyOps NewPostgresIdentifier ops).postgresID = some p) := by
  have h := applyOps_isSome ops NewPostgresIdentifier
  constructor
  · cases hm : (applyOps NewPostgresIdentifier ops).mongoID with
    | none => rfl
    | some m => rw [hm] at h; simp [NewPostgresIdentifier] at h
  · cases hp : (applyOps NewPostgresIdentifier ops).postgresID with
    | none => rw [hp] at h; simp [NewPostgresIdentifier] at h
    | some p => exact ⟨p, rfl⟩

/-- The per-element assertion loop panics whenever any element of the
filter slice is not the concrete UnifiedIdentifier type. -/
theorem assertAll_error (impl : String) (pre suf : List IdentifierValue) :
    assertAll (pre ++ IdentifierValue.other impl :: suf) = Except.error GoPanic.typeAssertion := by
  induction pre with
  | nil => rfl
  | cons a rest ih =>
    cases a with
    | unified u =>
      show (match assertUnified (IdentifierValue.unified u) with
        | Except.error e => Except.error e
        | Except.ok u =>
          match assertAll (rest ++ IdentifierValue.other impl :: suf) with
          | Except.error e => Except.error e
          | Except.ok us => Except.ok (u :: us)) = Except.error GoPanic.typeAssertion
      rw [ih]
      rfl
    | other s => rfl

/-- C1: the claim states FindAll(ctx, filter) returns exactly the
entities matching the filter, extracting the backend-native filter and
delegating it to the session. The embedded code refutes this: in both
backends FindAll issues the session's unfiltered findAll call, carrying
no filter at all, so the issued call (hence the result) is identical for
every filter and cannot depend on the filter's predicates. This
contradicts the FindAll doc comment in the source and the FindActiveUsers
usage example. -/
theorem findAll_discards_filter (ctx : Ctx) (f g : IdentifierValue) :
    mongo.FindAll ctx f = Except.ok mongo.SessionCall.findAll ∧
    mongo.FindAll ctx f = mongo.FindAll ctx g ∧
    postgres.FindAll ctx f = Except.ok postgres.SessionCall.findAll ∧
    postgres.FindAll ctx f = postgres.FindAll ctx g :=
  ⟨rfl, rfl, rfl, rfl⟩

/-- C2 counterexample: at the concrete context 0 and the filter list
holding one fresh mongo-mode identifier, BulkDelete issues the session's
bulkHardDelete call, which is in the hard-delete family, and which is not
the session delete call that the singular Delete issues for the same
filter. This refutes the claim that the plain (non-hard) bulk delete
operation is invoked. -/
theorem bulkDelete_invokes_hard_delete_counterexample :
    mongo.BulkDelete 0 [IdentifierValue.unified NewMongoIdentifier]
      = Except.ok (mongo.SessionCall.bulkHardDelete [some MongoNativeIdentifier.New]) ∧
    mongo.SessionCall.isHardDeleteCall
      (mongo.SessionCall.bulkHardDelete [some MongoNativeIdentifier.New]) = true ∧
    mongo.Delete 0 (IdentifierValue.unified NewMongoIdentifier)
      = Except.ok (mongo.SessionCall.delete (some MongoNativeIdentifier.New)) ∧
    mongo.SessionCall.isHardDeleteCall
      (mongo.SessionCall.delete (some MongoNativeIdentifier.New)) = false ∧
    postgres.BulkDelete 0 [IdentifierValue.unified NewPostgresIdentifier]
      = Except.ok (postgres.SessionCall.bulkHardDelete [some PostgresNativeIdentifier.NewIdentifier]) ∧
    postgres.SessionCall.isHardDeleteCall
      (postgres.SessionCall.bulkHardDelete [some PostgresNativeIdentifier.NewIdentifier]) = true :=
  ⟨rfl, rfl, rfl, rfl, rfl, rfl⟩

/-- C2 amended: for every context and filter list, BulkDelete translates
each filter to its backend-native form and invokes the session's bulk
hard delete operation; it coincides with the facade's BulkHardDelete and
so shares HardDelete's tombstone-ignoring permanent-removal semantics,
not the session operation used by the singular Delete. -/
theorem bulkDelete_equals_bulkHardDelete (ctx : Ctx) (filters : List IdentifierValue) :
    mongo.BulkDelete ctx filters = mongo.BulkHardDelete ctx filters ∧
    postgres.BulkDelete ctx filters = postgres.BulkHardDelete ctx filters :=
  ⟨rfl, rfl⟩

/-- C3: for every session factory and every call context (including
factories whose session reports a rollback failure), RollbackTransaction
returns success (nil error), discarding the session's rollback result,
while BeginTransaction and CommitTransaction return the session's result
unchanged; in both backends. -/
theorem rollbackTransaction_discards_error (rm : mongo.Factory) (rp : postgres.Factory) (ctx : Ctx) :
    mongo.RollbackTransaction rm ctx = none ∧
    mongo.BeginTransaction rm ctx = (rm.createWithContext ctx).beginResult ∧
    mongo.CommitTransaction rm ctx = (rm.createWithContext ctx).commitResult ∧
    postgres.RollbackTransaction rp ctx = none ∧
    postgres.BeginTransaction rp ctx = (rp.createWithContext ctx).beginResult ∧
    postgres.CommitTransaction rp ctx = (rp.createWithContext ctx).commitResult :=
  ⟨rfl, rfl, rfl, rfl, rfl, rfl⟩

/-- C10: every facade operation that type-asserts its filter (FindOne,
Update, Delete, SoftDelete, HardDelete, Restore, and the bulk operations
BulkDelete, BulkSoftDelete, BulkHardDelete on any list containing such an
element) panics on an input implementing types.Identifier that is not the
concrete UnifiedIdentifier, instead of returning an error, while on a
UnifiedIdentifier the assertion succeeds and the operation proceeds; in
both backends. -/
theorem unchecked_type_assertion_panics (ctx : Ctx) (impl : String) (u : UnifiedIdentifier)
    (pre suf : List IdentifierValue) :
    mongo.FindOne ctx (IdentifierValue.other impl) = Except.error GoPanic.typeAssertion ∧
    mongo.Update ctx (IdentifierValue.other impl) = Except.error GoPanic.typeAssertion ∧
    mongo.Delete ctx (IdentifierValue.other impl) = Except.error GoPanic.typeAssertion ∧
    mongo.SoftDelete ctx (IdentifierValue.other impl) = Except.error GoPanic.typeAssertion ∧
    mongo.HardDelete ctx (IdentifierValue.other impl) = Except.error GoPanic.typeAssertion ∧
    mongo.Restore ctx (IdentifierValue.other impl) = Except.error GoPanic.typeAssertion ∧
    mongo.BulkDelete ctx (pre ++ IdentifierValue.other impl :: suf)
      = Except.error GoPanic.typeAssertion ∧
    mongo.BulkSoftDelete ctx (pre ++ IdentifierValue.other impl :: suf)
      = Except.error GoPanic.typeAssertion ∧
    mongo.BulkHardDelete ctx (pre ++ IdentifierValue.other impl :: suf)
      = Except.error GoPanic.typeAssertion ∧
    mongo.FindOne ctx (IdentifierValue.unified u)
      = Except.ok (mongo.SessionCall.findOneByIdentifier u.GetMongoIdentifier) ∧
    postgres.FindOne ctx (IdentifierValue.other impl) = Except.error GoPanic.typeAssertion ∧
    postgres.Update ctx (IdentifierValue.other impl) = Except.error GoPanic.typeAssertion ∧
    postgres.Delete ctx (IdentifierValue.other impl) = Except.error GoPanic.typeAssertion ∧
    postgres.SoftDelete ctx (IdentifierValue.other impl) = Except.error GoPanic.typeAssertion ∧
    postgres.HardDelete ctx (IdentifierValue.other impl) = Except.error GoPanic.typeAssertion ∧
    postgres.Restore ctx (IdentifierValue.other impl) = Except.error GoPanic.typeAssertion ∧
    postgres.BulkDelete ctx (pre ++ IdentifierValue.other impl :: suf)
      = Except.error GoPanic.typeAssertion ∧
    postgres.BulkSoftDelete ctx (pre ++ IdentifierValue.other impl :: suf)
      = Except.error GoPanic.typeAssertion ∧
    postgres.BulkHardDelete ctx (pre ++ IdentifierValue.other impl :: suf)
      = Except.error GoPanic.typeAssertion ∧
    postgres.FindOne ctx (IdentifierValue.unified u)
      = Except.ok (postgres.SessionCall.findOneByIdentifier u.GetPostgresIdentifier) := by
  have hm : assertAll (pre ++ IdentifierValue.other impl :: suf)
      = Except.error GoPanic.typeAssertion := assertAll_error impl pre suf
  refine ⟨rfl, rfl, rfl, rfl, rfl, rfl, ?_, ?_, ?_, rfl,
    rfl, rfl, rfl, rfl, rfl, rfl, ?_, ?_, ?_, rfl⟩
  · unfold mongo.BulkDelete; rw [hm]
  · unfold mongo.BulkSoftDelete; rw [hm]
  · unfold mongo.BulkHardDelete; rw [hm]
  · unfold postgres.BulkDelete; rw [hm]
  · unfold postgres.BulkSoftDelete; rw [hm]
  · unfold postgres.BulkHardDelete; rw [hm]

/-- C4: for every field f and value v, and for an identifier constructed
in either backend mode (extended by any sequence of prior builder calls),
calling Equal(f, v) makes Has(f) return true immediately, and the native
extraction for the constructing backend (ToBSON in Mongo mode, ToMap in
Postgres mode) contains an equality predicate on f with value v. -/
theorem equal_sets_has_and_native_predicate (ops : List BuilderOp) (f : String) (v : GoVal) :
    ((applyOps NewMongoIdentifier ops).Equal f v).Has f = true ∧
    ((applyOps NewMongoIdentifier ops).Equal f v).ToBSON f FilterOp.eq = some v ∧
    ((applyOps NewPostgresIdentifier ops).Equal f v).Has f = true ∧
    ((applyOps NewPostgresIdentifier ops).Equal f v).ToMap f FilterOp.eq = some v := by
  obtain ⟨⟨m, hm⟩, hp⟩ := applyOps_newMongo_mode ops
  obtain ⟨hm2, p, hp2⟩ := applyOps_newPostgres_mode ops
  refine ⟨?_, ?_, ?_, ?_⟩
  · simp [UnifiedIdentifier.Has, UnifiedIdentifier.Equal, hm, hp, MongoNativeIdentifier.Equal,
      MongoNativeIdentifier.Has, PredStore.hasField, PredStore.upsert]
  · simp [UnifiedIdentifier.ToBSON, UnifiedIdentifier.Equal, hm, MongoNativeIdentifier.Equal,
      MongoNativeIdentifier.ToBSON, PredStore.upsert]
  · simp [UnifiedIdentifier.Has, UnifiedIdentifier.Equal, hm2, hp2, PostgresNativeIdentifier.Equal,
      PostgresNativeIdentifier.ToMap, PredStore.hasField, PredStore.upsert]
  · simp [UnifiedIdentifier.ToMap, UnifiedIdentifier.Equal, hp2, PostgresNativeIdentifier.Equal,
      PostgresNativeIdentifier.ToMap, PredStore.upsert]

/-- C5: re-invoking the same operator on the same field overwrites the
prior predicate: Equal(f, v1) then Equal(f, v2) extracts to exactly the
single-entry store with f equal to v2, while different operators on the
same field (Equal then GreaterThan) both persist in the extraction; in
both backend modes. -/
theorem same_field_same_op_overwrites (f : String) (v1 v2 : GoVal) :
    (UnifiedIdentifier.Equal (UnifiedIdentifier.Equal NewMongoIdentifier f v1) f v2).ToBSON
      = PredStore.empty.upsert f FilterOp.eq v2 ∧
    (UnifiedIdentifier.GreaterThan (UnifiedIdentifier.Equal NewMongoIdentifier f v1) f v2).ToBSON
      f FilterOp.eq = some v1 ∧
    (UnifiedIdentifier.GreaterThan (UnifiedIdentifier.Equal NewMongoIdentifier f v1) f v2).ToBSON
      f FilterOp.gt = some v2 ∧
    (UnifiedIdentifier.Equal (UnifiedIdentifier.Equal NewPostgresIdentifier f v1) f v2).ToMap
      = PredStore.empty.upsert f FilterOp.eq v2 ∧
    (UnifiedIdentifier.GreaterThan (UnifiedIdentifier.Equal NewPostgresIdentifier f v1) f v2).ToMap
      f FilterOp.eq = some v1 ∧
    (UnifiedIdentifier.GreaterThan (UnifiedIdentifier.Equal NewPostgresIdentifier f v1) f v2).ToMap
      f FilterOp.gt = some v2 := by
  refine ⟨PredStore.upsert_upsert_same PredStore.empty f FilterOp.eq v1 v2, ?_, ?_,
    PredStore.upsert_upsert_same PredStore.empty f FilterOp.eq v1 v2, ?_, ?_⟩ <;>
    simp [UnifiedIdentifier.Equal, UnifiedIdentifier.GreaterThan, UnifiedIdentifier.ToBSON,
      UnifiedIdentifier.ToMap, NewMongoIdentifier, NewPostgresIdentifier,
      MongoNativeIdentifier.New, MongoNativeIdentifier.Equal, MongoNativeIdentifier.GreaterThan,
      MongoNativeIdentifier.ToBSON, PostgresNativeIdentifier.NewIdentifier,
      PostgresNativeIdentifier.Equal, PostgresNativeIdentifier.GreaterThan,
      PostgresNativeIdentifier.ToMap, PredStore.upsert]

/-- C6: predicate application order on distinct fields is irrelevant:
Equal(a, v1) then GreaterThan(b, v2) and GreaterThan(b, v2) then
Equal(a, v1) produce identical native extractions from the same-mode
identifier, in both backend modes. -/
theorem distinct_field_order_irrelevant (a b : String) (v1 v2 : GoVal) (h : a ≠ b) :
    (UnifiedIdentifier.GreaterThan (UnifiedIdentifier.Equal NewMongoIdentifier a v1) b v2).ToBSON
      = (UnifiedIdentifier.Equal (UnifiedIdentifier.GreaterThan NewMongoIdentifier b v2) a v1).ToBSON ∧
    (UnifiedIdentifier.GreaterThan (UnifiedIdentifier.Equal NewPostgresIdentifier a v1) b v2).ToMap
      = (UnifiedIdentifier.Equal (UnifiedIdentifier.GreaterThan NewPostgresIdentifier b v2) a v1).ToMap :=
  ⟨PredStore.upsert_comm PredStore.empty a b FilterOp.eq FilterOp.gt v1 v2 (fun hc => h hc.1),
   PredStore.upsert_comm PredStore.empty a b FilterOp.eq FilterOp.gt v1 v2 (fun hc => h hc.1)⟩

/-- Witness for C6 at the concrete fields a and b with integer values. -/
theorem distinct_field_order_irrelevant_witness :
    (("a" : String) ≠ "b") ∧
    ((UnifiedIdentifier.GreaterThan
        (UnifiedIdentifier.Equal NewMongoIdentifier "a" (GoVal.vint 1)) "b" (GoVal.vint 2)).ToBSON
      = (UnifiedIdentifier.Equal
          (UnifiedIdentifier.GreaterThan NewMongoIdentifier "b" (GoVal.vint 2)) "a" (GoVal.vint 1)).ToBSON) :=
  ⟨by decide,
   (distinct_field_order_irrelevant "a" "b" (GoVal.vint 1) (GoVal.vint 2) (by decide)).1⟩

/-- C7: for every sequence of predicate calls, the native extraction of
the backend family not selected at construction is the empty map rather
than a failure: ToMap on a Mongo-mode identifier and ToBSON on a
Postgres-mode identifier. -/
theorem cross_backend_extraction_empty (ops : List BuilderOp) :
    (applyOps NewMongoIdentifier ops).ToMap = PredStore.empty ∧
    (applyOps NewPostgresIdentifier ops).ToBSON = PredStore.empty := by
  obtain ⟨-, hp⟩ := applyOps_newMongo_mode ops
  obtain ⟨hm, -⟩ := applyOps_newPostgres_mode ops
  constructor
  · simp [UnifiedIdentifier.ToMap, hp]
  · simp [UnifiedIdentifier.ToBSON, hm]

/-- C8: each of the two constructors establishes the invariant that
exactly one native representation is populated, and every sequence of
predicate-builder calls preserves it: the unselected representation
stays nil for the identifier's entire lifetime. -/
theorem exactly_one_representation_invariant :
    exactlyOnePopulated NewMongoIdentifier ∧
    exactlyOnePopulated NewPostgresIdentifier ∧
    ∀ (u : UnifiedIdentifier) (ops : List BuilderOp),
      exactlyOnePopulated u → exactlyOnePopulated (applyOps u ops) := by
  refine ⟨Or.inl ⟨rfl, rfl⟩, Or.inr ⟨rfl, rfl⟩, ?_⟩
  intro u ops h
  have hiso := applyOps_isSome ops u
  rcases h with ⟨hs, hn⟩ | ⟨hn, hs⟩
  · left
    refine ⟨hiso.1.trans hs, ?_⟩
    have hfalse : (applyOps u ops).postgresID.isSome = false := by rw [hiso.2, hn]; rfl
    cases hc : (applyOps u ops).postgresID with
    | none => rfl
    | some p => rw [hc] at hfalse; simp at hfalse
  · right
    refine ⟨?_, hiso.2.trans hs⟩
    have hfalse : (applyOps u ops).mongoID.isSome = false := by rw [hiso.1, hn]; rfl
    cases hc : (applyOps u ops).mongoID with
    | none => rfl
    | some m => rw [hc] at hfalse; simp at hfalse

/-- Witness for C8: the invariant holds after a concrete builder call on
a freshly constructed Mongo-mode identifier. -/
theorem exactly_one_representation_invariant_witness :
    exactlyOnePopulated (applyOps NewMongoIdentifier [BuilderOp.equal "name" (GoVal.vstr "test")]) :=
  exactly_one_representation_invariant.2.2 NewMongoIdentifier
    [BuilderOp.equal "name" (GoVal.vstr "test")] (Or.inl ⟨rfl, rfl⟩)

/-- C9: the backend-agnostic sort mapping is translated 1:1 into the
backend-native sort representation: a nil mapping yields nil, an empty
mapping yields an empty mapping, and for any mapping whose directions
are all SortAsc or SortDesc the translated map has exactly the same
fields with ascending mapped to ascending and descending to descending;
moreover FindAllWithPagination and GetTrashedWithPagination pass the
descriptor's sort mapping through convertSortMap; in both backends. -/
theorem convertSortMap_translates_one_to_one :
    mongo.convertSortMap none = none ∧
    mongo.convertSortMap (some (fun _ => none)) = some (fun _ => none) ∧
    postgres.convertSortMap none = none ∧
    postgres.convertSortMap (some (fun _ => none)) = some (fun _ => none) ∧
    (∀ (m : String → Option SortDirection),
      (∀ f, m f = none ∨ m f = some SortAsc ∨ m f = some SortDesc) →
      ∃ m1 m2, mongo.convertSortMap (some m) = some m1 ∧
        postgres.convertSortMap (some m) = some m2 ∧
        ∀ f, ((m1 f).isSome = (m f).isSome ∧ (m2 f).isSome = (m f).isSome) ∧
          (m f = some SortAsc →
            m1 f = some mongo.SortDir.asc ∧ m2 f = some postgres.SortDir.asc) ∧
          (m f = some SortDesc →
            m1 f = some mongo.SortDir.desc ∧ m2 f = some postgres.SortDir.desc)) ∧
    (∀ (ctx : Ctx) (p : QueryParams),
      mongo.FindAllWithPagination ctx p = Except.ok
        (mongo.SessionCall.findAllWithPagination p.Limit p.Offset
          (mongo.convertSortMap p.SortOrder)) ∧
      mongo.GetTrashedWithPagination ctx p = Except.ok
        (mongo.SessionCall.getTrashedWithPagination p.Limit p.Offset
          (mongo.convertSortMap p.SortOrder)) ∧
      postgres.FindAllWithPagination ctx p = Except.ok
        (postgres.SessionCall.findAllWithPagination p.Limit p.Offset
          (postgres.convertSortMap p.SortOrder)) ∧
      postgres.GetTrashedWithPagination ctx p = Except.ok
        (postgres.SessionCall.getTrashedWithPagination p.Limit p.Offset
          (postgres.convertSortMap p.SortOrder))) := by
  refine ⟨rfl, rfl, rfl, rfl, ?_, fun ctx p => ⟨rfl, rfl, rfl, rfl⟩⟩
  intro m hm
  refine ⟨_, _, rfl, rfl, ?_⟩
  intro f
  rcases hm f with h | h | h <;>
    simp [mongo.convertSortMap, postgres.convertSortMap, h, SortAsc, SortDesc]

/-- Witness for C9 at a concrete single-field ascending sort mapping. -/
theorem convertSortMap_translates_one_to_one_witness :
    ∃ m1 m2,
      mongo.convertSortMap (some (fun f => if f = "name" then some SortAsc else none)) = some m1 ∧
      postgres.convertSortMap (some (fun f => if f = "name" then some SortAsc else none)) = some m2 ∧
      ∀ f, ((m1 f).isSome
              = ((fun f => if f = "name" then some SortAsc else none) f).isSome ∧
            (m2 f).isSome
              = ((fun f => if f = "name" then some SortAsc else none) f).isSome) ∧
        ((fun f => if f = "name" then some SortAsc else none) f = some SortAsc →
          m1 f = some mongo.SortDir.asc ∧ m2 f = some postgres.SortDir.asc) ∧
        ((fun f => if f = "name" then some SortAsc else none) f = some SortDesc →
          m1 f = some mongo.SortDir.desc ∧ m2 f = some postgres.SortDir.desc) :=
  convertSortMap_translates_one_to_one.2.2.2.2.1
    (fun f => if f = "name" then some SortAsc else none)
    (fun f => by by_cases h : f = "name" <;> simp [h])
